import Mathlib

set_option maxHeartbeats 1000000

/-!
Shallow embedding of the trust-list cache manager (src/services/trustListService.ts),
the certificate trust extractor (src/utils/trustListUtils.ts) and the verification
result aggregator (extractValidationResults in the c2pa controller).

Conventions of the embedding:
* JavaScript strings are Lean `String`s; a missing / `null` / `undefined` string field
  is modelled either as `Option String` (when the source distinguishes `null`) or as
  the empty string `""` (when the source only ever observes it through `||` fallbacks,
  for which `""` and `undefined` behave identically).
* `a || b` on strings is `jsOr`; truthiness of an optional string is `jsTruthy`.
* Timestamps (`Date.now()`, `Date` objects, parsed time strings) are epoch
  milliseconds: `Nat` in the cache manager, `Int` in the aggregator (so that
  "now minus 400 days" needs no underflow care).
* The filesystem and the network are explicit: the cache directory content is an
  association list keyed by file path, the metadata file is a three-valued state
  (absent / unparseable / valid), and each remote resource download has an explicit
  outcome.  `try/catch` blocks become `Option`/fallback branches.
-/

/-- JavaScript `a || b` for strings: `""` is falsy. -/
def jsOr (a b : String) : String := if a == "" then b else a

/-- JavaScript `a || b` where `a` is a nullable string and the result is a string. -/
def jsOrOpt (a : Option String) (b : String) : String :=
  match a with
  | none => b
  | some s => jsOr s b

/-- JavaScript truthiness of a nullable string: `null`, `undefined` and `""` are falsy. -/
def jsTruthy : Option String → Bool
  | none => false
  | some s => s != ""

/-- JavaScript `x || null` on a nullable string: collapses `""` to `null`. -/
def jsNullable (a : Option String) : Option String :=
  match a with
  | none => none
  | some s => if s == "" then none else some s

/-- Check whether `needle` occurs as a contiguous sublist of `hay`
(the character-level content of JavaScript `String.prototype.includes`). -/
def listIncludes (needle : List Char) : List Char → Bool
  | [] => needle.isEmpty
  | c :: rest => needle.isPrefixOf (c :: rest) || listIncludes needle rest

/-- JavaScript `hay.includes(needle)` on strings. -/
def strIncludes (hay needle : String) : Bool :=
  listIncludes needle.data hay.data

/-- JavaScript `s.toLowerCase()`, character by character (ASCII suffices for every
keyword the source compares against). -/
def strToLower (s : String) : String :=
  ⟨s.data.map Char.toLower⟩

/-- Look a key up in an association list (JavaScript property read / first match). -/
def lookupAssoc {α : Type} : List (String × α) → String → Option α
  | [], _ => none
  | p :: ps, k => if p.1 == k then some p.2 else lookupAssoc ps k

/-- Update an association list the way JavaScript object assignment `o[k] = v` does:
overwrite in place when the key exists, append otherwise. -/
def setAssoc {α : Type} (l : List (String × α)) (k : String) (v : α) : List (String × α) :=
  if l.any (fun p => p.1 == k) then
    l.map (fun p => if p.1 == k then (k, v) else p)
  else
    l ++ [(k, v)]

/-! ### Certificate trust extractor (src/utils/trustListUtils.ts, extractCertificateTrustInfo) -/

/-- One validation-status entry as read by the extractor (`status.code || ''`,
`status.explanation || ''`): `""` models a missing field. -/
structure CertValidationEntry where
  code : String
  explanation : String
deriving Repr, DecidableEq

/-- Signature metadata of the active manifest as read by the extractor. -/
structure CertSignatureInfo where
  issuer : Option String
  time : Option String
deriving Repr, DecidableEq

/-- The active manifest as read by the extractor. -/
structure CertActiveManifest where
  signature_info : Option CertSignatureInfo
deriving Repr, DecidableEq

/-- The slice of the c2pa read result consumed by `extractCertificateTrustInfo`:
its flat `validation_status` array (`c2paData.validation_status || []` models a
missing array as `[]`) and the active manifest's signature metadata. -/
structure C2paCertData where
  validation_status : List CertValidationEntry
  active_manifest : Option CertActiveManifest
deriving Repr, DecidableEq

/-- The trust verdict produced by the extractor (and consumed by the aggregator). -/
structure CertificateTrustInfo where
  isTrusted : Bool
  issuer : Option String
  timestamp : Option String
  errorMessage : Option String
deriving Repr, DecidableEq

/-- The filter predicate of `extractCertificateTrustInfo`: the status code is matched
against `"cert"` and `"trust"`, the explanation against `"certificate"` and
`"trusted"` (all via case-insensitive substring tests). -/
def certErrorPred (status : CertValidationEntry) : Bool :=
  strIncludes (strToLower status.code) "cert" ||
  strIncludes (strToLower status.code) "trust" ||
  strIncludes (strToLower status.explanation) "certificate" ||
  strIncludes (strToLower status.explanation) "trusted"

/-- Per-entry message fallback: `error.explanation || error.code || '不明なエラー'`. -/
def certErrorMessage (e : CertValidationEntry) : String :=
  jsOr e.explanation (jsOr e.code "不明なエラー")

/-- Embedding of `extractCertificateTrustInfo` from src/utils/trustListUtils.ts. -/
def extractCertificateTrustInfo (c2paData : Option C2paCertData) : CertificateTrustInfo :=
  match c2paData with
  | none =>
    { isTrusted := false, issuer := none, timestamp := none,
      errorMessage := some "C2PAデータがありません" }
  | some d =>
    let certificateErrors := d.validation_status.filter certErrorPred
    let issuer :=
      match d.active_manifest with
      | some am =>
        match am.signature_info with
        | some si => jsNullable si.issuer
        | none => none
      | none => none
    let timestamp :=
      match d.active_manifest with
      | some am =>
        match am.signature_info with
        | some si => jsNullable si.time
        | none => none
      | none => none
    if certificateErrors.length > 0 then
      { isTrusted := false, issuer := issuer, timestamp := timestamp,
        errorMessage := some (String.intercalate "; " (certificateErrors.map certErrorMessage)) }
    else
      { isTrusted := true, issuer := issuer, timestamp := timestamp, errorMessage := none }

/-- The matching rule as the specification words it: code *or* explanation matched
against every one of the four keywords.  (Stated from the spec, for comparison with
`certErrorPred`, which is translated from the source.) -/
def specCertKeywordMatch (e : CertValidationEntry) : Bool :=
  ["cert", "trust", "certificate", "trusted"].any fun k =>
    strIncludes (strToLower e.code) k || strIncludes (strToLower e.explanation) k

/-! ### Verification result aggregator (extractValidationResults in the c2pa controller) -/

/-- One `{code, explanation, url}` validation-status entry as the aggregator reads it
(`""` models a missing field, matching the `|| default` accesses in the source). -/
structure ValidationStatusEntry where
  code : String
  explanation : String
  url : String
deriving Repr, DecidableEq

/-- Signature metadata of a manifest.  The `time` string is modelled by the epoch
milliseconds of `new Date(time)` and `timeObject` by its own epoch milliseconds,
since the source only ever compares them as dates. -/
structure SignatureInfo where
  issuer : Option String
  time : Option Int
  timeObject : Option Int
deriving Repr, DecidableEq

/-- An ingredient embedded in a manifest, as far as the aggregator reads it. -/
structure Ingredient where
  title : String
  validation_status : Option (List ValidationStatusEntry)
deriving Repr, DecidableEq

/-- A resolved manifest as the aggregator reads it.  `assertions` only ever
contributes its length to the report, so its elements are plain labels. -/
structure ResolvedManifest where
  label : Option String
  title : String
  format : String
  claim_generator : String
  assertions : List String
  ingredients : List Ingredient
  signature_info : Option SignatureInfo
  validation_status : Option (List ValidationStatusEntry)
deriving Repr, DecidableEq

/-- The manifest store handed to the aggregator: active manifest, label-keyed
manifest map (an association list in `Object.entries` order) and the overall
validation status in its string form (`""` models `null`). -/
structure ResolvedManifestStore where
  active_manifest : Option ResolvedManifest
  manifests : List (String × ResolvedManifest)
  validation_status : String
deriving Repr, DecidableEq

/-- A recorded validation detail `{code, explanation, url}` with the defaults applied. -/
structure ValidationDetail where
  code : String
  explanation : String
  url : Option String
deriving Repr, DecidableEq

/-- The per-manifest block of the report. -/
structure ManifestValidationInfo where
  label : String
  title : String
  isActive : Bool
  signatureInfo : Option SignatureInfo
  signatureTime : Option Int
  signatureIssuer : Option String
  validationDetails : List ValidationDetail
  ingredientIssues : Option (List String)
deriving Repr, DecidableEq

/-- The `manifestStore` summary block of the report. -/
structure ManifestStoreSummary where
  validationStatus : String
  activeManifestLabel : Option String
  manifestsCount : Nat
deriving Repr, DecidableEq

/-- The `activeManifest` snapshot block of the report. -/
structure ActiveManifestSummary where
  label : Option String
  title : String
  format : String
  generator : String
  signatureInfo : Option SignatureInfo
  assertionsCount : Nat
  ingredientsCount : Nat
deriving Repr, DecidableEq

/-- The `validationDetails` object of the aggregator's return value. -/
structure ValidationDetails where
  status : String
  errors : List String
  warnings : List String
  manifestValidations : List ManifestValidationInfo
  manifestStore : ManifestStoreSummary
  activeManifest : Option ActiveManifestSummary
  certificateTrust : CertificateTrustInfo
deriving Repr, DecidableEq

/-- The aggregator's full return value. -/
structure ValidationResults where
  isValid : Bool
  validationDetails : ValidationDetails
deriving Repr, DecidableEq

/-- Generic tamper message pushed to `errors` once per manifest when the overall
status is `"invalid"`. -/
def tamperErrorMsg : String :=
  "C2PA署名が無効です。マニフェストまたは署名が改ざんされている可能性があります。"

/-- Generic message pushed to `warnings` once per manifest when the overall status
is neither `"valid"` nor `"invalid"`. -/
def genericWarningMsg : String :=
  "C2PA署名に警告があります。署名は有効ですが、一部の検証に問題があります。"

/-- Warning pushed when the active manifest's signature carries no derivable time. -/
def missingTimestampMsg : String :=
  "署名にタイムスタンプが含まれていません。信頼性が低下する可能性があります。"

/-- Warning pushed when the active manifest's signature is older than one year. -/
def oldSignatureMsg : String :=
  "署名が1年以上前に作成されています。証明書が失効している可能性があります。"

/-- The certificate-trust warning string, `` `証明書の信頼性: ${errorMessage}` ``. -/
def certTrustWarning (msg : String) : String :=
  "証明書の信頼性: " ++ msg

/-- A validation-status entry turned into a recorded detail, with the source's
defaults `"unknown"`, `"詳細情報なし"` and `url || null`. -/
def toDetail (vs : ValidationStatusEntry) : ValidationDetail :=
  { code := jsOr vs.code "unknown"
    explanation := jsOr vs.explanation "詳細情報なし"
    url := if vs.url == "" then none else some vs.url }

/-- Whether a recorded detail's code classifies as an error
(`detail.code.includes("invalid") || detail.code.includes("error")`). -/
def detailIsError (d : ValidationDetail) : Bool :=
  strIncludes d.code "invalid" || strIncludes d.code "error"

/-- Explanations pushed to `errors` by a manifest's own validation-status entries. -/
def entryErrors (es : List ValidationStatusEntry) : List String :=
  es.filterMap fun vs =>
    let d := toDetail vs
    if detailIsError d then some d.explanation else none

/-- Explanations pushed to `warnings` by a manifest's own validation-status entries
(`else if detail.code.includes("warning")`). -/
def entryWarnings (es : List ValidationStatusEntry) : List String :=
  es.filterMap fun vs =>
    let d := toDetail vs
    if detailIsError d then none
    else if strIncludes d.code "warning" then some d.explanation
    else none

/-- The issue string built for one ingredient validation-status entry:
`` `材料 ${index + 1} (${title || "不明"}): ${explanation || code || "検証エラー"}` ``. -/
def ingredientIssueStr (idx : Nat) (ing : Ingredient) (vs : ValidationStatusEntry) : String :=
  "材料 " ++ toString (idx + 1) ++ " (" ++ jsOr ing.title "不明" ++ "): " ++
    jsOr vs.explanation (jsOr vs.code "検証エラー")

/-- Ingredient entry classification: `vs.code && (vs.code.includes("invalid") ||
vs.code.includes("error"))` — note it tests the raw code, not the recorded default. -/
def ingredientIsError (vs : ValidationStatusEntry) : Bool :=
  vs.code != "" && (strIncludes vs.code "invalid" || strIncludes vs.code "error")

/-- All ingredient issue strings of a manifest, each paired with its error/warning
classification, in source push order (ingredient index counts every ingredient). -/
def ingredientEntries (ings : List Ingredient) : List (String × Bool) :=
  (ings.enum.map fun p =>
    (p.2.validation_status.getD []).map fun vs =>
      (ingredientIssueStr p.1 p.2 vs, ingredientIsError vs)).flatten

/-- Everything one manifest pushes to `errors`, in source order: the generic tamper
message (when the overall status is `"invalid"`), then entry explanations, then
ingredient issues classified as errors. -/
def manifestErrors (overall : String) (m : ResolvedManifest) : List String :=
  (if overall == "invalid" then [tamperErrorMsg] else []) ++
  entryErrors (m.validation_status.getD []) ++
  (ingredientEntries m.ingredients).filterMap fun p => if p.2 then some p.1 else none

/-- Everything one manifest pushes to `warnings`, in source order. -/
def manifestWarnings (overall : String) (m : ResolvedManifest) : List String :=
  (if overall == "invalid" then []
   else if overall != "valid" then [genericWarningMsg] else []) ++
  entryWarnings (m.validation_status.getD []) ++
  (ingredientEntries m.ingredients).filterMap fun p => if p.2 then none else some p.1

/-- The per-manifest info block built inside the manifest loop. -/
def buildManifestInfo (active : Option ResolvedManifest) (lbl : String)
    (m : ResolvedManifest) : ManifestValidationInfo :=
  { label := lbl
    title := jsOr m.title "不明なタイトル"
    isActive := match active with
      | some am => am.label == some lbl
      | none => false
    signatureInfo := m.signature_info
    signatureTime := match m.signature_info with
      | some si => si.timeObject <|> si.time
      | none => none
    signatureIssuer := match m.signature_info with
      | some si => some (jsOrOpt si.issuer "不明な発行者")
      | none => none
    validationDetails := (m.validation_status.getD []).map toDetail
    ingredientIssues :=
      let issues := (ingredientEntries m.ingredients).map Prod.fst
      if issues.isEmpty then none else some issues }

/-- The timestamp-freshness warnings appended after the manifest loop.
`oneYearAgo` is the clock reading shifted back one calendar year via
`setFullYear(getFullYear() - 1)`; `signatureDate = timeObject || (time ? new
Date(time) : null)`. -/
def timestampWarnings (oneYearAgo : Int) (active : Option ResolvedManifest) : List String :=
  match active with
  | none => []
  | some am =>
    match am.signature_info with
    | none => []
    | some si =>
      match si.timeObject <|> si.time with
      | none => [missingTimestampMsg]
      | some t => if t < oneYearAgo then [oldSignatureMsg] else []

/-- The certificate-trust warnings appended before the manifest loop:
`if (certificateTrustInfo) { if (!isTrusted && errorMessage) warnings.push(...) }`. -/
def certTrustWarnings (certificateTrustInfo : Option CertificateTrustInfo) : List String :=
  match certificateTrustInfo with
  | none => []
  | some v =>
    if !v.isTrusted && jsTruthy v.errorMessage then
      [certTrustWarning (v.errorMessage.getD "")]
    else []

/-- Embedding of `extractValidationResults` from the c2pa controller.  `now` and
`oneYearAgo` are the two `new Date()` readings taken during the timestamp check
(they are related by one calendar year; theorems carry that as a 365/366-day bound). -/
def extractValidationResults (manifestStore : ResolvedManifestStore)
    (certificateTrustInfo : Option CertificateTrustInfo)
    (now oneYearAgo : Int) : ValidationResults :=
  let validationStatus := jsOr manifestStore.validation_status "unknown"
  let isValid := validationStatus == "valid"
  let status := if isValid then "valid"
    else if validationStatus == "invalid" then "invalid" else "warning"
  let activeManifest := manifestStore.active_manifest
  let manifests := manifestStore.manifests
  let errors := (manifests.map fun p => manifestErrors validationStatus p.2).flatten
  let warnings :=
    certTrustWarnings certificateTrustInfo ++
    (manifests.map fun p => manifestWarnings validationStatus p.2).flatten ++
    timestampWarnings oneYearAgo activeManifest
  let _ := now
  { isValid := isValid
    validationDetails :=
    { status := status
      errors := errors
      warnings := warnings
      manifestValidations := manifests.map fun p => buildManifestInfo activeManifest p.1 p.2
      manifestStore :=
      { validationStatus := validationStatus
        activeManifestLabel := activeManifest.bind fun am => jsNullable am.label
        manifestsCount := manifests.length }
      activeManifest := activeManifest.map fun am =>
        { label := am.label
          title := am.title
          format := am.format
          generator := am.claim_generator
          signatureInfo := am.signature_info
          assertionsCount := am.assertions.length
          ingredientsCount := am.ingredients.length }
      certificateTrust := certificateTrustInfo.getD
        { isTrusted := false, issuer := none, timestamp := none,
          errorMessage := some "証明書信頼性情報が利用できません" } } }

/-! ### Trust list cache manager (src/services/trustListService.ts) -/

/-- The cached metadata record for one trust resource (`hash` is declared optional
in the source and never written, so it is omitted). -/
structure TrustFileEntry where
  path : String
  url : String
  lastUpdated : Nat
  size : Nat
deriving Repr, DecidableEq

/-- The `CacheMetadata` record persisted in `metadata.json`; `files` keeps
JavaScript object insertion order as an association list. -/
structure CacheMetadata where
  lastUpdated : Nat
  nextRefreshAt : Nat
  files : List (String × TrustFileEntry)
deriving Repr, DecidableEq

/-- State of the metadata file on disk: missing, present but unparseable JSON, or a
parsed record. -/
inductive MetadataFile where
  | absent
  | corrupt
  | valid (m : CacheMetadata)
deriving Repr, DecidableEq

/-- Embedding of `getCacheMetadata`: read and parse `metadata.json`, falling back to
the fresh empty record when the file is missing or the parse throws. -/
def getCacheMetadata (f : MetadataFile) : CacheMetadata :=
  match f with
  | .valid m => m
  | _ => { lastUpdated := 0, nextRefreshAt := 0, files := [] }

/-- Outcome of fetching one remote trust resource during a refresh cycle: the body
text on success, or failure (any thrown error — timeout, non-2xx, DNS, write error —
is caught inside `downloadTrustFile`). -/
inductive DownloadOutcome where
  | ok (content : String)
  | fail
deriving Repr, DecidableEq

/-- Whether a download outcome succeeded. -/
def DownloadOutcome.isOk : DownloadOutcome → Bool
  | .ok _ => true
  | .fail => false

/-- The byte size recorded for a download (`result.size || 0`); content length
stands in for the on-disk byte count. -/
def DownloadOutcome.size : DownloadOutcome → Nat
  | .ok content => content.length
  | .fail => 0

/-- One of the four trust resources: its metadata key and its file name
(shared between the cache path and the remote URL). -/
structure TrustTask where
  key : String
  file : String
deriving Repr, DecidableEq

/-- The `allowed.pem` resource (`trustConfig.sources.allowedCerts`). -/
def allowedCertsTask : TrustTask := ⟨"allowedCerts", "allowed.pem"⟩

/-- The `allowed.sha256.txt` resource (`trustConfig.sources.allowedHashes`). -/
def allowedHashesTask : TrustTask := ⟨"allowedHashes", "allowed.sha256.txt"⟩

/-- The `anchors.pem` resource (`trustConfig.sources.anchorCerts`). -/
def anchorCertsTask : TrustTask := ⟨"anchorCerts", "anchors.pem"⟩

/-- The `store.cfg` resource (`trustConfig.sources.storeCfg`). -/
def storeCfgTask : TrustTask := ⟨"storeCfg", "store.cfg"⟩

/-- The four download tasks of a refresh cycle, in source order, with the resource
file names from the configuration (`config.c2pa.trust.sources`). -/
def trustTasks : List TrustTask :=
  [allowedCertsTask, allowedHashesTask, anchorCertsTask, storeCfgTask]

/-- The environment of the cache manager: configuration plus the behaviour of the
outside world (network and filesystem) during one call. -/
structure TrustEnv where
  enabled : Bool
  refreshInterval : Nat
  baseUrl : String
  cacheDir : String
  download : String → DownloadOutcome
  mkdirOk : Bool
  saveOk : Bool

/-- The mutable on-disk state the manager reads and writes: the metadata file and
the cached resource files, keyed by path. -/
structure TrustCacheState where
  metaFile : MetadataFile
  disk : List (String × String)
deriving Repr

/-- Cache path of a task's resource file. -/
def taskPath (env : TrustEnv) (t : TrustTask) : String :=
  env.cacheDir ++ "/" ++ t.file

/-- Remote URL of a task's resource file. -/
def taskUrl (env : TrustEnv) (t : TrustTask) : String :=
  env.baseUrl ++ "/" ++ t.file

/-- Embedding of `downloadTrustFile`: on success the body is written to the cache
path and `{success: true, size}` is returned; every failure is caught and reported
as `{success: false}` with the disk untouched. -/
def downloadTrustFile (outcome : DownloadOutcome) (destPath : String)
    (disk : List (String × String)) : (Bool × Nat) × List (String × String) :=
  match outcome with
  | .ok content => ((true, content.length), setAssoc disk destPath content)
  | .fail => ((false, 0), disk)

/-- The metadata/disk update step for one task of the download loop in
`updateTrustLists` (lines 140-153 of the source): a successful download records a
fresh `files` entry, a failed one clears the all-success flag. -/
def updateStep (env : TrustEnv) (now : Nat)
    (acc : Bool × CacheMetadata × List (String × String)) (task : TrustTask) :
    Bool × CacheMetadata × List (String × String) :=
  let res := downloadTrustFile (env.download task.key) (taskPath env task) acc.2.2
  let entry : TrustFileEntry :=
    { path := taskPath env task, url := taskUrl env task,
      lastUpdated := now, size := res.1.2 }
  if res.1.1 then
    (acc.1, { acc.2.1 with files := setAssoc acc.2.1.files task.key entry }, res.2)
  else
    (false, acc.2.1, res.2)

/-- Embedding of `updateTrustLists`: the refresh cycle.  Returns the aggregate
boolean together with the new on-disk state.  The outer `try/catch` is the fallback
to `false` on a directory-creation or metadata-save failure; the early `true` return
is the still-valid TTL check. -/
def updateTrustLists (env : TrustEnv) (st : TrustCacheState) (now : Nat) :
    Bool × TrustCacheState :=
  if !env.enabled then (false, st)
  else if !env.mkdirOk then (false, st)
  else
    let metadata := getCacheMetadata st.metaFile
    if metadata.nextRefreshAt > now then (true, st)
    else
      let r := trustTasks.foldl (updateStep env now) (true, metadata, st.disk)
      let m2 : CacheMetadata :=
        { r.2.1 with lastUpdated := now, nextRefreshAt := now + env.refreshInterval }
      if env.saveOk then (r.1, ⟨.valid m2, r.2.2⟩)
      else (false, ⟨st.metaFile, r.2.2⟩)

/-- The four cache paths returned by `getTrustListPaths`. -/
structure TrustListPaths where
  allowedCertsPath : String
  allowedHashesPath : String
  anchorCertsPath : String
  storeCfgPath : String
deriving Repr, DecidableEq

/-- The staleness test of `getTrustListPaths` (line 192 of the source):
`metadata.lastUpdated === 0 || metadata.nextRefreshAt < now`. -/
def refreshDue (m : CacheMetadata) (now : Nat) : Bool :=
  m.lastUpdated == 0 || m.nextRefreshAt < now

/-- Embedding of `getTrustListPaths`: ensure the cache directory, refresh when the
metadata is stale (ignoring a failed refresh), re-attempt a refresh when any cached
file is missing, then return the four paths; `none` models the `null` returned when
the component is disabled or the directory cannot be created. -/
def getTrustListPaths (env : TrustEnv) (st : TrustCacheState) (now : Nat) :
    Option TrustListPaths × TrustCacheState :=
  if !env.enabled then (none, st)
  else if !env.mkdirOk then (none, st)
  else
    let metadata := getCacheMetadata st.metaFile
    let st1 := if refreshDue metadata now then (updateTrustLists env st now).2 else st
    let st2 :=
      if trustTasks.all (fun t => (lookupAssoc st1.disk (taskPath env t)).isSome) then st1
      else (updateTrustLists env st1 now).2
    (some { allowedCertsPath := taskPath env allowedCertsTask
            allowedHashesPath := taskPath env allowedHashesTask
            anchorCertsPath := taskPath env anchorCertsTask
            storeCfgPath := taskPath env storeCfgTask }, st2)

/-- The four text blobs returned by `getTrustListContents`. -/
structure TrustListContents where
  trustAnchors : String
  allowedList : String
  allowedHashes : String
  trustConfig : String
deriving Repr, DecidableEq

/-- Embedding of `getTrustListContents`: obtain the paths (refreshing as needed),
then read the four cached files; any missing file makes the `readFile` batch throw,
which the source catches and converts to `null`. -/
def getTrustListContents (env : TrustEnv) (st : TrustCacheState) (now : Nat) :
    Option TrustListContents × TrustCacheState :=
  match getTrustListPaths env st now with
  | (none, st') => (none, st')
  | (some paths, st') =>
    match lookupAssoc st'.disk paths.anchorCertsPath, lookupAssoc st'.disk paths.allowedCertsPath,
          lookupAssoc st'.disk paths.allowedHashesPath, lookupAssoc st'.disk paths.storeCfgPath with
    | some a, some b, some c, some d =>
      (some { trustAnchors := a, allowedList := b, allowedHashes := c, trustConfig := d }, st')
    | _, _, _, _ => (none, st')

/-- The status record returned by `getTrustListStatus`; ISO-8601 rendering of a
timestamp is modelled by the timestamp itself, and the `x ? ... : null` truthiness
tests make `0` render as `null`. -/
structure TrustListStatus where
  enabled : Bool
  available : Bool
  lastUpdated : Option Nat
  nextRefresh : Option Nat
  files : List (String × Nat × Option Nat)
deriving Repr, DecidableEq

/-- Embedding of `getTrustListStatus`: a pure read of the metadata record. -/
def getTrustListStatus (enabled : Bool) (metaFile : MetadataFile) : TrustListStatus :=
  if !enabled then
    { enabled := false, available := false, lastUpdated := none,
      nextRefresh := none, files := [] }
  else
    let m := getCacheMetadata metaFile
    { enabled := true
      available := decide (m.lastUpdated > 0)
      lastUpdated := if m.lastUpdated == 0 then none else some m.lastUpdated
      nextRefresh := if m.nextRefreshAt == 0 then none else some m.nextRefreshAt
      files := m.files.map fun p =>
        (p.1, p.2.size, if p.2.lastUpdated == 0 then none else some p.2.lastUpdated) }

/-! ### Concrete example inputs used by witnesses and counterexamples -/

/-- Environment in which the `allowedCerts` download fails and the other three
succeed (network and filesystem otherwise healthy). -/
def mixedOutcomeEnv : TrustEnv :=
  { enabled := true, refreshInterval := 500,
    baseUrl := "https://contentcredentials.org/trust", cacheDir := "/tmp/c2pa-trust-cache",
    download := fun k => if k == "allowedCerts" then .fail else .ok "data",
    mkdirOk := true, saveOk := true }

/-- Environment with an unreachable network: every resource download fails. -/
def allFailEnv : TrustEnv :=
  { enabled := true, refreshInterval := 500,
    baseUrl := "https://contentcredentials.org/trust", cacheDir := "/tmp/c2pa-trust-cache",
    download := fun _ => .fail, mkdirOk := true, saveOk := true }

/-- A manifest with no validation-status entries and no ingredients. -/
def cleanManifest : ResolvedManifest :=
  { label := some "m1", title := "Example", format := "image/jpeg", claim_generator := "gen",
    assertions := [], ingredients := [], signature_info := none, validation_status := none }

/-- A store whose overall validation status is `"valid"`, with one clean manifest. -/
def validStore : ResolvedManifestStore :=
  { active_manifest := none, manifests := [("m1", cleanManifest)], validation_status := "valid" }

/-- A trusted certificate verdict. -/
def trustedVerdict : CertificateTrustInfo :=
  { isTrusted := true, issuer := some "CN", timestamp := none, errorMessage := none }

/-- An untrusted certificate verdict carrying a message. -/
def untrustedVerdict : CertificateTrustInfo :=
  { isTrusted := false, issuer := none, timestamp := none,
    errorMessage := some "signing certificate not on the allowed list" }

/-- A manifest carrying the validation entry
`{code: "assertion.hashedURI.mismatch", explanation: "hash mismatch"}`. -/
def mismatchManifest : ResolvedManifest :=
  { label := some "m1", title := "", format := "", claim_generator := "", assertions := [],
    ingredients := [], signature_info := none,
    validation_status := some [⟨"assertion.hashedURI.mismatch", "hash mismatch", ""⟩] }

/-- A store with overall status `"invalid"` holding `mismatchManifest`. -/
def mismatchStore : ResolvedManifestStore :=
  { active_manifest := none, manifests := [("m1", mismatchManifest)],
    validation_status := "invalid" }

/-- A clean active manifest whose signature carries the given time. -/
def timeManifest (t : Option Int) : ResolvedManifest :=
  { label := some "m0", title := "Photo", format := "image/jpeg", claim_generator := "gen",
    assertions := [], ingredients := [],
    signature_info := some { issuer := some "CN", time := t, timeObject := none },
    validation_status := none }

/-- A `"valid"` store whose active manifest has signature time `t`. -/
def timeStore (t : Option Int) : ResolvedManifestStore :=
  { active_manifest := some (timeManifest t), manifests := [("m0", timeManifest t)],
    validation_status := "valid" }

/-- Milliseconds in one day. -/
def dayMs : Int := 86400000

/-! ### Helper lemmas -/

theorem lookupAssoc_cons {α : Type} (p : String × α) (ps : List (String × α)) (k : String) :
    lookupAssoc (p :: ps) k = if p.1 == k then some p.2 else lookupAssoc ps k := rfl

theorem lookupAssoc_setAssoc_self {α : Type} (l : List (String × α)) (k : String) (v : α) :
    lookupAssoc (setAssoc l k v) k = some v := by
  unfold setAssoc
  by_cases hany : l.any (fun p => p.1 == k) = true
  · rw [if_pos hany]
    induction l with
    | nil => cases hany
    | cons p ps ih =>
      by_cases hp : p.1 = k
      · rw [List.map_cons, if_pos (beq_iff_eq.mpr hp), lookupAssoc_cons,
            if_pos (beq_self_eq_true k)]
      · have hp' : (p.1 == k) = false := beq_eq_false_iff_ne.mpr hp
        have hps : ps.any (fun p => p.1 == k) = true := by
          rcases List.any_eq_true.mp hany with ⟨q, hq, hqk⟩
          rcases List.mem_cons.mp hq with rfl | hq'
          · exact absurd hqk (by simp [hp'])
          · exact List.any_eq_true.mpr ⟨q, hq', hqk⟩
        rw [List.map_cons, if_neg (by simp [hp']), lookupAssoc_cons,
            if_neg (by simp [hp'])]
        exact ih hps
  · rw [if_neg hany]
    induction l with
    | nil =>
      rw [List.nil_append, lookupAssoc_cons, if_pos (beq_self_eq_true k)]
    | cons p ps ih =>
      have hp' : (p.1 == k) = false := by
        cases hpk : (p.1 == k) with
        | false => rfl
        | true => exact absurd (List.any_eq_true.mpr ⟨p, List.mem_cons_self p ps, hpk⟩) hany
      rw [List.cons_append, lookupAssoc_cons, if_neg (by simp [hp'])]
      refine ih ?_
      intro hcon
      rcases List.any_eq_true.mp hcon with ⟨q, hq, hqk⟩
      exact hany (List.any_eq_true.mpr ⟨q, List.mem_cons_of_mem _ hq, hqk⟩)

theorem lookupAssoc_setAssoc_ne {α : Type} (l : List (String × α)) (k k' : String) (v : α)
    (hne : k' ≠ k) :
    lookupAssoc (setAssoc l k v) k' = lookupAssoc l k' := by
  have hkk : (k == k') = false := beq_eq_false_iff_ne.mpr fun he => hne he.symm
  unfold setAssoc
  by_cases hany : l.any (fun p => p.1 == k) = true
  · rw [if_pos hany]
    clear hany
    induction l with
    | nil => rfl
    | cons p ps ih =>
      by_cases hp : p.1 = k
      · rw [List.map_cons, if_pos (beq_iff_eq.mpr hp), lookupAssoc_cons, lookupAssoc_cons,
            if_neg (by simp [hkk]), if_neg (by simp [hp, hkk]), ih]
      · rw [List.map_cons, if_neg (by simp [beq_eq_false_iff_ne.mpr hp]), lookupAssoc_cons,
            lookupAssoc_cons, ih]
  · rw [if_neg hany]
    induction l with
    | nil =>
      rw [List.nil_append, lookupAssoc_cons, if_neg (by simp [hkk])]
    | cons p ps ih =>
      rw [List.cons_append, lookupAssoc_cons, lookupAssoc_cons]
      by_cases hp : p.1 = k'
      · rw [if_pos (beq_iff_eq.mpr hp), if_pos (beq_iff_eq.mpr hp)]
      · rw [if_neg (by simp [hp]), if_neg (by simp [hp])]
        refine ih ?_
        intro hcon
        rcases List.any_eq_true.mp hcon with ⟨q, hq, hqk⟩
        exact hany (List.any_eq_true.mpr ⟨q, List.mem_cons_of_mem _ hq, hqk⟩)

theorem updateStep_files_lookup_ne (env : TrustEnv) (now : Nat)
    (acc : Bool × CacheMetadata × List (String × String)) (t' : TrustTask) (k : String)
    (hne : t'.key ≠ k) :
    lookupAssoc (updateStep env now acc t').2.1.files k = lookupAssoc acc.2.1.files k := by
  cases h : env.download t'.key with
  | ok c =>
    simp only [updateStep, downloadTrustFile, h, if_true]
    exact lookupAssoc_setAssoc_ne _ _ _ _ fun he => hne he.symm
  | fail => simp [updateStep, downloadTrustFile, h]

theorem foldl_updateStep_lookup_notmem (env : TrustEnv) (now : Nat)
    (tasks : List TrustTask) (acc : Bool × CacheMetadata × List (String × String))
    (k : String) (hk : ∀ t ∈ tasks, t.key ≠ k) :
    lookupAssoc (tasks.foldl (updateStep env now) acc).2.1.files k =
      lookupAssoc acc.2.1.files k := by
  induction tasks generalizing acc with
  | nil => rfl
  | cons t' ts ih =>
    rw [List.foldl_cons, ih _ fun t ht => hk t (List.mem_cons_of_mem _ ht)]
    exact updateStep_files_lookup_ne env now acc t' k (hk t' (List.mem_cons_self t' ts))

theorem foldl_updateStep_files_lookup (env : TrustEnv) (now : Nat)
    (tasks : List TrustTask) (acc : Bool × CacheMetadata × List (String × String))
    (t : TrustTask) (ht : t ∈ tasks)
    (hnodup : (tasks.map TrustTask.key).Nodup) :
    lookupAssoc (tasks.foldl (updateStep env now) acc).2.1.files t.key =
      (if (env.download t.key).isOk then
        some ⟨taskPath env t, taskUrl env t, now, (env.download t.key).size⟩
       else lookupAssoc acc.2.1.files t.key) := by
  induction tasks generalizing acc with
  | nil => cases ht
  | cons t' ts ih =>
    rw [List.map_cons, List.nodup_cons] at hnodup
    rcases List.mem_cons.mp ht with rfl | hmem
    · rw [List.foldl_cons]
      have hnot : ∀ u ∈ ts, u.key ≠ t.key := by
        intro u hu he
        exact hnodup.1 (he ▸ List.mem_map_of_mem TrustTask.key hu)
      rw [foldl_updateStep_lookup_notmem env now ts _ t.key hnot]
      cases h : env.download t.key with
      | ok c =>
        simp only [updateStep, downloadTrustFile, h, if_true, DownloadOutcome.isOk,
          DownloadOutcome.size, lookupAssoc_setAssoc_self]
      | fail =>
        simp [updateStep, downloadTrustFile, h, DownloadOutcome.isOk]
    · rw [List.foldl_cons, ih _ hmem hnodup.2]
      have hne : t'.key ≠ t.key := by
        intro he
        exact hnodup.1 (he ▸ List.mem_map_of_mem TrustTask.key hmem)
      rw [updateStep_files_lookup_ne env now acc t' t.key hne]

theorem foldl_updateStep_fst (env : TrustEnv) (now : Nat) (tasks : List TrustTask)
    (acc : Bool × CacheMetadata × List (String × String)) :
    (tasks.foldl (updateStep env now) acc).1 =
      (acc.1 && tasks.all fun t => (env.download t.key).isOk) := by
  induction tasks generalizing acc with
  | nil => simp
  | cons t ts ih =>
    rw [List.foldl_cons, ih, List.all_cons]
    cases h : env.download t.key <;>
      simp [updateStep, downloadTrustFile, h, DownloadOutcome.isOk, Bool.and_assoc]

theorem foldl_updateStep_disk_of_fail (env : TrustEnv) (now : Nat) (tasks : List TrustTask)
    (acc : Bool × CacheMetadata × List (String × String))
    (h : ∀ k, env.download k = .fail) :
    (tasks.foldl (updateStep env now) acc).2.2 = acc.2.2 := by
  induction tasks generalizing acc with
  | nil => rfl
  | cons t ts ih =>
    rw [List.foldl_cons, ih]
    simp [updateStep, downloadTrustFile, h t.key]

theorem updateTrustLists_disk_of_fail (env : TrustEnv) (st : TrustCacheState) (now : Nat)
    (h : ∀ k, env.download k = .fail) :
    (updateTrustLists env st now).2.disk = st.disk := by
  unfold updateTrustLists
  cases he : env.enabled
  · simp
  · cases hm : env.mkdirOk
    · simp
    · simp only [Bool.not_true, Bool.false_eq_true, if_false, ite_false]
      split
      · rfl
      · split <;> simp [foldl_updateStep_disk_of_fail env now trustTasks _ h]

theorem getTrustListPaths_parts (env : TrustEnv) (st : TrustCacheState) (now : Nat)
    (hfail : ∀ k, env.download k = .fail) :
    (getTrustListPaths env st now).2.disk = st.disk ∧
    ((getTrustListPaths env st now).1 = none ∨
     (getTrustListPaths env st now).1 = some
       ⟨taskPath env allowedCertsTask, taskPath env allowedHashesTask,
        taskPath env anchorCertsTask, taskPath env storeCfgTask⟩) := by
  have hdiskU : ∀ st', (updateTrustLists env st' now).2.disk = st'.disk :=
    fun st' => updateTrustLists_disk_of_fail env st' now hfail
  refine ⟨?_, ?_⟩
  · unfold getTrustListPaths
    cases he : env.enabled
    · rfl
    · cases hm : env.mkdirOk
      · rfl
      · simp only [Bool.not_true, Bool.false_eq_true, if_false, ite_false]
        split
        · split
          · rw [hdiskU]
          · rw [hdiskU, hdiskU]
        · split
          · rfl
          · rw [hdiskU]
  · unfold getTrustListPaths
    cases he : env.enabled
    · exact Or.inl rfl
    · cases hm : env.mkdirOk
      · exact Or.inl rfl
      · exact Or.inr rfl

/-! ### Claim theorems -/

/-- C1 (counterexample): in the cycle where the `allowedCerts` download fails and the
other three succeed, `updateTrustLists` still advances the global `lastUpdated` from
0 to `now` and `nextRefreshAt` from 0 to `now + refreshInterval`, refuting the claim
that a partial failure leaves the global schedule untouched. -/
theorem refresh_with_failure_advances_schedule :
    mixedOutcomeEnv.download "allowedCerts" = .fail ∧
    (updateTrustLists mixedOutcomeEnv ⟨.absent, []⟩ 1000).1 = false ∧
    (getCacheMetadata MetadataFile.absent).lastUpdated = 0 ∧
    (getCacheMetadata MetadataFile.absent).nextRefreshAt = 0 ∧
    (getCacheMetadata
        (updateTrustLists mixedOutcomeEnv ⟨.absent, []⟩ 1000).2.metaFile).lastUpdated
      = 1000 ∧
    (getCacheMetadata
        (updateTrustLists mixedOutcomeEnv ⟨.absent, []⟩ 1000).2.metaFile).nextRefreshAt
      = 1500 := by
  decide

/-- C1 (amended): in every refresh cycle that reaches the download phase (component
enabled, refresh due, cache directory and metadata save healthy), the global
`lastUpdated` and `nextRefreshAt` are set to `now` and `now + refreshInterval`
regardless of the download outcomes, while the per-resource `files` entries are
updated exactly for the resources whose download succeeded. -/
theorem updateTrustLists_global_schedule (env : TrustEnv) (st : TrustCacheState) (now : Nat)
    (h1 : env.enabled = true) (h2 : env.mkdirOk = true)
    (h3 : (getCacheMetadata st.metaFile).nextRefreshAt ≤ now)
    (h4 : env.saveOk = true) :
    (getCacheMetadata (updateTrustLists env st now).2.metaFile).lastUpdated = now ∧
    (getCacheMetadata (updateTrustLists env st now).2.metaFile).nextRefreshAt
      = now + env.refreshInterval ∧
    ∀ t ∈ trustTasks,
      lookupAssoc (getCacheMetadata (updateTrustLists env st now).2.metaFile).files t.key =
        (if (env.download t.key).isOk then
          some ⟨taskPath env t, taskUrl env t, now, (env.download t.key).size⟩
         else lookupAssoc (getCacheMetadata st.metaFile).files t.key) := by
  unfold updateTrustLists
  simp only [h1, h2, h4, Bool.not_true, Bool.false_eq_true, if_false, ite_false, if_true,
    ite_true]
  rw [if_neg (by omega : ¬ (getCacheMetadata st.metaFile).nextRefreshAt > now)]
  refine ⟨rfl, rfl, fun t ht => ?_⟩
  exact foldl_updateStep_files_lookup env now trustTasks _ t ht (by decide)

/-- Witness for the amended C1 theorem, at the partial-failure cycle. -/
theorem updateTrustLists_global_schedule_witness :
    mixedOutcomeEnv.enabled = true ∧ mixedOutcomeEnv.mkdirOk = true ∧
    (getCacheMetadata (TrustCacheState.mk .absent []).metaFile).nextRefreshAt ≤ 1000 ∧
    mixedOutcomeEnv.saveOk = true ∧
    ((getCacheMetadata
        (updateTrustLists mixedOutcomeEnv ⟨.absent, []⟩ 1000).2.metaFile).lastUpdated
        = 1000 ∧
     (getCacheMetadata
        (updateTrustLists mixedOutcomeEnv ⟨.absent, []⟩ 1000).2.metaFile).nextRefreshAt
        = 1000 + mixedOutcomeEnv.refreshInterval ∧
     ∀ t ∈ trustTasks,
       lookupAssoc
           (getCacheMetadata
             (updateTrustLists mixedOutcomeEnv ⟨.absent, []⟩ 1000).2.metaFile).files
           t.key =
         (if (mixedOutcomeEnv.download t.key).isOk then
           some ⟨taskPath mixedOutcomeEnv t, taskUrl mixedOutcomeEnv t, 1000,
                 (mixedOutcomeEnv.download t.key).size⟩
          else lookupAssoc
            (getCacheMetadata (TrustCacheState.mk .absent []).metaFile).files t.key)) :=
  ⟨rfl, rfl, by decide, rfl,
    updateTrustLists_global_schedule mixedOutcomeEnv ⟨.absent, []⟩ 1000 rfl rfl (by decide) rfl⟩

/-- C2 (counterexample): the entry `{code: "", explanation: "trust failure"}` matches
the claim's symmetric four-keyword rule (its explanation contains `"trust"`), yet
`extractCertificateTrustInfo` reports it trusted with no message — the source checks
the explanation only against `"certificate"` and `"trusted"`. -/
theorem certTrust_keyword_asymmetry :
    specCertKeywordMatch ⟨"", "trust failure"⟩ = true ∧
    (extractCertificateTrustInfo (some ⟨[⟨"", "trust failure"⟩], none⟩)).isTrusted = true ∧
    (extractCertificateTrustInfo (some ⟨[⟨"", "trust failure"⟩], none⟩)).errorMessage
      = none := by
  decide

/-- C2 (amended): for every non-null input, `isTrusted = false` exactly when some
validation-status entry has a code containing `"cert"` or `"trust"`, or an
explanation containing `"certificate"` or `"trusted"` (case-insensitively); the
error message is the semicolon-joined per-entry fallback chain over the matching
entries, and `none` when no entry matches. -/
theorem certTrust_characterization (d : C2paCertData) :
    ((extractCertificateTrustInfo (some d)).isTrusted = false ↔
      ∃ e ∈ d.validation_status, certErrorPred e = true) ∧
    ((extractCertificateTrustInfo (some d)).errorMessage =
      if (d.validation_status.filter certErrorPred).isEmpty then none
      else some (String.intercalate "; "
        ((d.validation_status.filter certErrorPred).map certErrorMessage))) := by
  unfold extractCertificateTrustInfo
  rcases hfilter : d.validation_status.filter certErrorPred with _ | ⟨a, as⟩
  · simp only [hfilter, List.length_nil, List.isEmpty_nil]
    constructor
    · simp only [gt_iff_lt, lt_self_iff_false, if_false]
      constructor
      · intro hcontra
        exact absurd hcontra (by decide)
      · rintro ⟨e, he, hpred⟩
        have : e ∈ d.validation_status.filter certErrorPred :=
          List.mem_filter.mpr ⟨he, hpred⟩
        rw [hfilter] at this
        cases this
    · simp
  · have ha : a ∈ d.validation_status.filter certErrorPred := by
      rw [hfilter]; exact List.mem_cons_self a as
    have hmem := List.mem_filter.mp ha
    simp only [hfilter, List.length_cons, List.isEmpty_cons]
    constructor
    · simp only [Nat.succ_pos, if_true, gt_iff_lt, Nat.zero_lt_succ]
      exact ⟨fun _ => ⟨a, hmem.1, hmem.2⟩, fun _ => trivial⟩
    · simp

/-- C3: when a refresh cycle actually runs its downloads (component enabled, refresh
due, cache directory and metadata save healthy), `updateTrustLists` returns `true`
exactly when all four downloads succeeded; download failures are absorbed into the
aggregate boolean rather than escaping as exceptions (the embedding is total over
every outcome assignment). -/
theorem updateTrustLists_aggregate (env : TrustEnv) (st : TrustCacheState) (now : Nat)
    (h1 : env.enabled = true) (h2 : env.mkdirOk = true)
    (h3 : (getCacheMetadata st.metaFile).nextRefreshAt ≤ now)
    (h4 : env.saveOk = true) :
    (updateTrustLists env st now).1 = trustTasks.all fun t => (env.download t.key).isOk := by
  unfold updateTrustLists
  simp only [h1, h2, h4, Bool.not_true, Bool.false_eq_true, if_false, ite_false, if_true,
    ite_true]
  rw [if_neg (by omega : ¬ (getCacheMetadata st.metaFile).nextRefreshAt > now)]
  simp [foldl_updateStep_fst]

/-- Witness for C3 at the partial-failure cycle: one failed download makes the
aggregate boolean false without an exception. -/
theorem updateTrustLists_aggregate_witness :
    mixedOutcomeEnv.enabled = true ∧ mixedOutcomeEnv.mkdirOk = true ∧
    (getCacheMetadata (TrustCacheState.mk .absent []).metaFile).nextRefreshAt ≤ 1000 ∧
    mixedOutcomeEnv.saveOk = true ∧
    (updateTrustLists mixedOutcomeEnv ⟨.absent, []⟩ 1000).1 =
      (trustTasks.all fun t => (mixedOutcomeEnv.download t.key).isOk) :=
  ⟨rfl, rfl, by decide, rfl,
    updateTrustLists_aggregate mixedOutcomeEnv ⟨.absent, []⟩ 1000 rfl rfl (by decide) rfl⟩

/-- C4: an untrusted verdict with a message prepends exactly one certificate-trust
warning (`証明書の信頼性: <message>`) to the warning list, and the verdict never
influences `isValid`, `status` or `errors` — those depend only on the store. -/
theorem aggregate_cert_warning (s : ResolvedManifestStore) (v : CertificateTrustInfo)
    (now oneYearAgo : Int) (msg : String)
    (h1 : v.isTrusted = false) (h2 : v.errorMessage = some msg) (h3 : msg ≠ "") :
    ((extractValidationResults s (some v) now oneYearAgo).validationDetails.warnings
      = certTrustWarning msg ::
        (extractValidationResults s none now oneYearAgo).validationDetails.warnings) ∧
    (∀ v₁ v₂ : Option CertificateTrustInfo,
      (extractValidationResults s v₁ now oneYearAgo).isValid
        = (extractValidationResults s v₂ now oneYearAgo).isValid ∧
      (extractValidationResults s v₁ now oneYearAgo).validationDetails.status
        = (extractValidationResults s v₂ now oneYearAgo).validationDetails.status ∧
      (extractValidationResults s v₁ now oneYearAgo).validationDetails.errors
        = (extractValidationResults s v₂ now oneYearAgo).validationDetails.errors) := by
  refine ⟨?_, fun v₁ v₂ => ⟨rfl, rfl, rfl⟩⟩
  have hc : certTrustWarnings (some v) = [certTrustWarning msg] := by
    simp [certTrustWarnings, h1, h2, jsTruthy, h3]
  simp only [extractValidationResults]
  rw [hc]
  rfl

/-- Witness for C4 at a valid store and an untrusted verdict. -/
theorem aggregate_cert_warning_witness :
    untrustedVerdict.isTrusted = false ∧
    untrustedVerdict.errorMessage = some "signing certificate not on the allowed list" ∧
    "signing certificate not on the allowed list" ≠ "" ∧
    (extractValidationResults validStore (some untrustedVerdict) 0 0).validationDetails.warnings
      = certTrustWarning "signing certificate not on the allowed list" ::
        (extractValidationResults validStore none 0 0).validationDetails.warnings :=
  ⟨rfl, rfl, by decide,
    (aggregate_cert_warning validStore untrustedVerdict 0 0
      "signing certificate not on the allowed list" rfl rfl (by decide)).1⟩

/-- C5: when every download fails and at least one required resource file has never
been cached, `getTrustListContents` returns `null` (and by construction, never
throws); the cold start with no metadata and an empty cache directory is the
witness instance. -/
theorem getTrustListContents_cold_none (env : TrustEnv) (st : TrustCacheState) (now : Nat)
    (hfail : ∀ k, env.download k = .fail)
    (hmiss : ∃ t ∈ trustTasks, lookupAssoc st.disk (taskPath env t) = none) :
    (getTrustListContents env st now).1 = none := by
  obtain ⟨t, ht, hnone⟩ := hmiss
  obtain ⟨hdisk, hfst⟩ := getTrustListPaths_parts env st now hfail
  unfold getTrustListContents
  rcases hP : getTrustListPaths env st now with ⟨p, st'⟩
  rw [hP] at hdisk hfst
  rcases hfst with hfst | hfst
  · simp only at hfst
    rw [hfst]
  · simp only at hfst hdisk
    rw [hfst]
    simp only [hdisk]
    have hts : t = allowedCertsTask ∨ t = allowedHashesTask ∨ t = anchorCertsTask ∨
        t = storeCfgTask := by
      simpa [trustTasks] using ht
    rcases hts with rfl | rfl | rfl | rfl <;>
      rcases hA : lookupAssoc st.disk (taskPath env anchorCertsTask) with _ | a <;>
      rcases hB : lookupAssoc st.disk (taskPath env allowedCertsTask) with _ | b <;>
      rcases hC : lookupAssoc st.disk (taskPath env allowedHashesTask) with _ | c <;>
      rcases hD : lookupAssoc st.disk (taskPath env storeCfgTask) with _ | d <;>
      simp_all

/-- Witness for C5: cold start (no metadata file, empty cache directory) with an
unreachable network yields `null`. -/
theorem getTrustListContents_cold_none_witness :
    (∀ k, allFailEnv.download k = .fail) ∧
    (∃ t ∈ trustTasks,
      lookupAssoc (TrustCacheState.mk .absent []).disk (taskPath allFailEnv t) = none) ∧
    (getTrustListContents allFailEnv ⟨.absent, []⟩ 0).1 = none :=
  ⟨fun _ => rfl, ⟨allowedCertsTask, by decide, rfl⟩,
    getTrustListContents_cold_none allFailEnv ⟨.absent, []⟩ 0 (fun _ => rfl)
      ⟨allowedCertsTask, by decide, rfl⟩⟩

/-- C6 (counterexample): with overall status `"invalid"` and the single entry
`{code: "assertion.hashedURI.mismatch", explanation: "hash mismatch"}`, the error
list holds only the generic tamper message — `"hash mismatch"` is absent, because
the code contains neither `"invalid"` nor `"error"` — refuting the claimed example. -/
theorem tamper_example_no_entry_error :
    (extractValidationResults mismatchStore none 0 0).validationDetails.errors
      = [tamperErrorMsg] ∧
    ¬ ("hash mismatch"
        ∈ (extractValidationResults mismatchStore none 0 0).validationDetails.errors) ∧
    (extractValidationResults mismatchStore none 0 0).isValid = false ∧
    strIncludes "assertion.hashedURI.mismatch" "invalid" = false ∧
    strIncludes "assertion.hashedURI.mismatch" "error" = false := by
  decide

/-- C6 (amended): per-manifest entries whose (defaulted) code contains `"invalid"`
or `"error"` contribute their explanation to `errors`; entries whose code contains
`"warning"` (and is not an error code) contribute to `warnings`; an overall
`"invalid"` status contributes the generic tamper message per manifest; and in the
claimed example the error list is exactly the generic tamper message, without
`"hash mismatch"`, with `isValid = false`. -/
theorem aggregate_entry_classification (s : ResolvedManifestStore)
    (v : Option CertificateTrustInfo) (now oneYearAgo : Int)
    (lbl : String) (m : ResolvedManifest) (vs : ValidationStatusEntry)
    (hm : (lbl, m) ∈ s.manifests) (hvs : vs ∈ m.validation_status.getD []) :
    (detailIsError (toDetail vs) = true →
      jsOr vs.explanation "詳細情報なし"
        ∈ (extractValidationResults s v now oneYearAgo).validationDetails.errors) ∧
    (detailIsError (toDetail vs) = false →
      strIncludes (jsOr vs.code "unknown") "warning" = true →
      jsOr vs.explanation "詳細情報なし"
        ∈ (extractValidationResults s v now oneYearAgo).validationDetails.warnings) ∧
    (s.validation_status = "invalid" →
      tamperErrorMsg ∈ (extractValidationResults s v now oneYearAgo).validationDetails.errors) ∧
    ((extractValidationResults mismatchStore none 0 0).validationDetails.errors
        = [tamperErrorMsg] ∧
     (extractValidationResults mismatchStore none 0 0).isValid = false) := by
  have hmem : manifestErrors (jsOr s.validation_status "unknown") m
      ∈ s.manifests.map fun p => manifestErrors (jsOr s.validation_status "unknown") p.2 :=
    List.mem_map.mpr ⟨(lbl, m), hm, rfl⟩
  have hmemw : manifestWarnings (jsOr s.validation_status "unknown") m
      ∈ s.manifests.map fun p => manifestWarnings (jsOr s.validation_status "unknown") p.2 :=
    List.mem_map.mpr ⟨(lbl, m), hm, rfl⟩
  refine ⟨?_, ?_, ?_, by decide, by decide⟩
  · intro herr
    have hin : jsOr vs.explanation "詳細情報なし"
        ∈ manifestErrors (jsOr s.validation_status "unknown") m := by
      unfold manifestErrors
      refine List.mem_append.mpr (Or.inl (List.mem_append.mpr (Or.inr ?_)))
      unfold entryErrors
      refine List.mem_filterMap.mpr ⟨vs, hvs, ?_⟩
      rw [if_pos herr]
      rfl
    show _ ∈ (s.manifests.map fun p =>
      manifestErrors (jsOr s.validation_status "unknown") p.2).flatten
    exact List.mem_flatten.mpr ⟨_, hmem, hin⟩
  · intro herr hwarn
    have hin : jsOr vs.explanation "詳細情報なし"
        ∈ manifestWarnings (jsOr s.validation_status "unknown") m := by
      unfold manifestWarnings
      refine List.mem_append.mpr (Or.inl (List.mem_append.mpr (Or.inr ?_)))
      unfold entryWarnings
      refine List.mem_filterMap.mpr ⟨vs, hvs, ?_⟩
      have hwarn' : strIncludes (toDetail vs).code "warning" = true := hwarn
      rw [if_neg (by simp [herr]), if_pos hwarn']
      rfl
    show _ ∈ certTrustWarnings v ++ (s.manifests.map fun p =>
        manifestWarnings (jsOr s.validation_status "unknown") p.2).flatten
      ++ timestampWarnings oneYearAgo s.active_manifest
    refine List.mem_append.mpr (Or.inl (List.mem_append.mpr (Or.inr ?_)))
    exact List.mem_flatten.mpr ⟨_, hmemw, hin⟩
  · intro hinv
    have hin : tamperErrorMsg ∈ manifestErrors (jsOr s.validation_status "unknown") m := by
      unfold manifestErrors
      refine List.mem_append.mpr (Or.inl (List.mem_append.mpr (Or.inl ?_)))
      rw [hinv]
      exact List.mem_singleton.mpr rfl
    show _ ∈ (s.manifests.map fun p =>
      manifestErrors (jsOr s.validation_status "unknown") p.2).flatten
    exact List.mem_flatten.mpr ⟨_, hmem, hin⟩

/-- Witness for the amended C6 theorem at the claimed example store. -/
theorem aggregate_entry_classification_witness :
    (("m1", mismatchManifest) ∈ mismatchStore.manifests) ∧
    (ValidationStatusEntry.mk "assertion.hashedURI.mismatch" "hash mismatch" ""
      ∈ mismatchManifest.validation_status.getD []) ∧
    mismatchStore.validation_status = "invalid" ∧
    tamperErrorMsg ∈ (extractValidationResults mismatchStore none 0 0).validationDetails.errors :=
  ⟨by decide, by decide, rfl,
    (aggregate_entry_classification mismatchStore none 0 0 "m1" mismatchManifest
      ⟨"assertion.hashedURI.mismatch", "hash mismatch", ""⟩ (by decide) (by decide)).2.2.1 rfl⟩

/-- C7: `isValid` is exactly "overall status equals `valid`", `status` maps
valid / invalid / anything else (including the `unknown` default for a missing
value) to `"valid"` / `"invalid"` / `"warning"`; a valid store with a trusted
verdict and no validation entries yields a clean report. -/
theorem aggregate_status_mapping (s : ResolvedManifestStore) (v : Option CertificateTrustInfo)
    (now oneYearAgo : Int) :
    ((extractValidationResults s v now oneYearAgo).isValid
        = (jsOr s.validation_status "unknown" == "valid")) ∧
    ((extractValidationResults s v now oneYearAgo).validationDetails.status
        = if jsOr s.validation_status "unknown" == "valid" then "valid"
          else if jsOr s.validation_status "unknown" == "invalid" then "invalid"
          else "warning") ∧
    ((extractValidationResults validStore (some trustedVerdict) now oneYearAgo).isValid
        = true ∧
     (extractValidationResults validStore (some trustedVerdict)
        now oneYearAgo).validationDetails.status = "valid" ∧
     (extractValidationResults validStore (some trustedVerdict)
        now oneYearAgo).validationDetails.errors = [] ∧
     (extractValidationResults validStore (some trustedVerdict)
        now oneYearAgo).validationDetails.warnings = []) :=
  ⟨rfl, rfl, rfl, rfl, rfl, rfl⟩

/-- C8: with `oneYearAgo` one calendar year (365 or 366 days) behind `now`, an
active manifest with signature metadata but no derivable time yields exactly the
missing-timestamp warning, a 400-day-old signature yields exactly the
over-one-year advisory, a 10-day-old one yields no warning at all, and the error
list never depends on the clock. -/
theorem aggregate_timestamp_advisories (now oneYearAgo : Int)
    (hlo : now - 366 * dayMs ≤ oneYearAgo) (hhi : oneYearAgo ≤ now - 365 * dayMs) :
    ((extractValidationResults (timeStore none) none now oneYearAgo).validationDetails.warnings
       = [missingTimestampMsg]) ∧
    ((extractValidationResults (timeStore (some (now - 400 * dayMs))) none now
        oneYearAgo).validationDetails.warnings = [oldSignatureMsg]) ∧
    ((extractValidationResults (timeStore (some (now - 10 * dayMs))) none now
        oneYearAgo).validationDetails.warnings = []) ∧
    (∀ (s : ResolvedManifestStore) (v : Option CertificateTrustInfo) (n₁ o₁ n₂ o₂ : Int),
      (extractValidationResults s v n₁ o₁).validationDetails.errors
        = (extractValidationResults s v n₂ o₂).validationDetails.errors) := by
  have hday : dayMs = 86400000 := rfl
  refine ⟨rfl, ?_, ?_, fun s v n₁ o₁ n₂ o₂ => rfl⟩
  · have hcond : now - 400 * dayMs < oneYearAgo := by rw [hday] at hlo ⊢; omega
    simp [extractValidationResults, timeStore, timeManifest, manifestWarnings, entryWarnings,
      ingredientEntries, certTrustWarnings, timestampWarnings, jsOr, hcond]
  · have hcond : ¬ (now - 10 * dayMs < oneYearAgo) := by rw [hday] at hhi ⊢; omega
    simp [extractValidationResults, timeStore, timeManifest, manifestWarnings, entryWarnings,
      ingredientEntries, certTrustWarnings, timestampWarnings, jsOr, hcond]

/-- Witness for C8 at `now = 0` with `oneYearAgo` exactly 365 days earlier. -/
theorem aggregate_timestamp_advisories_witness :
    ((0 : Int) - 366 * dayMs ≤ -365 * dayMs) ∧ ((-365 * dayMs : Int) ≤ 0 - 365 * dayMs) ∧
    ((extractValidationResults (timeStore none) none 0 (-365 * dayMs)).validationDetails.warnings
       = [missingTimestampMsg]) ∧
    ((extractValidationResults (timeStore (some (0 - 400 * dayMs))) none 0
        (-365 * dayMs)).validationDetails.warnings = [oldSignatureMsg]) ∧
    ((extractValidationResults (timeStore (some (0 - 10 * dayMs))) none 0
        (-365 * dayMs)).validationDetails.warnings = []) := by
  have h := aggregate_timestamp_advisories 0 (-365 * dayMs) (by decide) (by decide)
  exact ⟨by decide, by decide, h.1, h.2.1, h.2.2.1⟩

/-- C9: the aggregator is a pure function of the store, the verdict and the clock
reading — two calls on identical inputs return identical full reports. -/
theorem aggregate_deterministic (s₁ s₂ : ResolvedManifestStore)
    (v₁ v₂ : Option CertificateTrustInfo) (n₁ n₂ o₁ o₂ : Int)
    (hs : s₁ = s₂) (hv : v₁ = v₂) (hn : n₁ = n₂) (ho : o₁ = o₂) :
    extractValidationResults s₁ v₁ n₁ o₁ = extractValidationResults s₂ v₂ n₂ o₂ := by
  subst hs; subst hv; subst hn; subst ho; rfl

/-- Witness for C9 at a concrete store. -/
theorem aggregate_deterministic_witness :
    ((timeStore none) = (timeStore none)) ∧
    extractValidationResults (timeStore none) none 0 0
      = extractValidationResults (timeStore none) none 0 0 :=
  ⟨rfl, aggregate_deterministic (timeStore none) (timeStore none) none none 0 0 0 0
    rfl rfl rfl rfl⟩

/-- C10: a missing or unparseable metadata file reads back as the empty record
`{lastUpdated: 0, nextRefreshAt: 0, files: {}}` without an error, so the status
endpoint reports the cache unavailable and the staleness test of
`getTrustListPaths` considers a refresh due at every clock value. -/
theorem cacheMetadata_empty_of_unreadable (f : MetadataFile) (now : Nat)
    (h : f = .absent ∨ f = .corrupt) :
    getCacheMetadata f = ⟨0, 0, []⟩ ∧
    (getTrustListStatus true f).available = false ∧
    refreshDue (getCacheMetadata f) now = true := by
  rcases h with h | h <;> subst h <;> exact ⟨rfl, by decide, rfl⟩

/-- Witness for C10 at a corrupt metadata file and clock value 5. -/
theorem cacheMetadata_empty_of_unreadable_witness :
    (MetadataFile.corrupt = MetadataFile.absent ∨ MetadataFile.corrupt = MetadataFile.corrupt) ∧
    (getCacheMetadata .corrupt = ⟨0, 0, []⟩ ∧
     (getTrustListStatus true .corrupt).available = false ∧
     refreshDue (getCacheMetadata .corrupt) 5 = true) :=
  ⟨Or.inr rfl, cacheMetadata_empty_of_unreadable .corrupt 5 (Or.inr rfl)⟩
